import Mathlib

/-!
Shallow embedding of the limit-crossing scan, interpolation, file-output and
construction guards of the acispy thermal-model suite
(acispy/thermal_models.py, acispy/model.py), with theorems checking the
claims of the specification about them.

Conventions: machine floats are embedded as rationals (ℚ), numpy arrays as
lists, filesystem state as an association list from filename to file content,
and Python exceptions as values of Except.  External collaborators
(Chandra.Time date conversion, the engineering-archive fetch, the xija model
run, file loading helpers not in this package) enter as explicit parameters
supplying their results.
-/

namespace Acispy

/-! ### Linear interpolation (numpy.interp / Ska.Numpy.interpolate, linear)

`np_interp x l` evaluates piecewise-linear interpolation through the sample
points `l` (pairs of abscissa and value, abscissae strictly increasing) at
`x`, clamping to the first and last values outside the sampled range, exactly
as `numpy.interp` does. -/

def np_interp (x : ℚ) : List (ℚ × ℚ) → ℚ
  | [] => 0
  | [(_, f0)] => f0
  | (x0, f0) :: (x1, f1) :: rest =>
    if x ≤ x0 then f0
    else if x < x1 then f0 + (f1 - f0) * (x - x0) / (x1 - x0)
    else np_interp x ((x1, f1) :: rest)

/-- In a pair list sorted by abscissa (`Chain'` with strict less-than), every
member has abscissa at least that of the head. -/
theorem chain_head_le (p : ℚ × ℚ) (l : List (ℚ × ℚ))
    (h : List.Chain' (fun a b : ℚ × ℚ => a.1 < b.1) (p :: l)) :
    ∀ q ∈ p :: l, p.1 ≤ q.1 := by
  induction l generalizing p with
  | nil =>
    intro q hq
    simp only [List.mem_singleton] at hq
    exact le_of_eq (by rw [hq])
  | cons r t ih =>
    intro q hq
    have hpr : p.1 < r.1 := (List.chain'_cons.mp h).1
    rcases List.mem_cons.mp hq with h1 | h2
    · exact le_of_eq (by rw [h1])
    · exact le_trans (le_of_lt hpr) (ih r (List.chain'_cons.mp h).2 q h2)

/-- Interpolating at one of the sample abscissae returns the stored sample
value exactly (abscissae strictly increasing). -/
theorem np_interp_at_sample (l : List (ℚ × ℚ))
    (hl : List.Chain' (fun a b : ℚ × ℚ => a.1 < b.1) l)
    (a b : ℚ) (hab : (a, b) ∈ l) : np_interp a l = b := by
  induction l with
  | nil => exact absurd hab (List.not_mem_nil _)
  | cons p t ih =>
    match p, t with
    | (x0, f0), [] =>
      have hone : (a, b) = (x0, f0) := List.mem_singleton.mp hab
      have ha : a = x0 := congrArg Prod.fst hone
      have hb : b = f0 := congrArg Prod.snd hone
      simp [np_interp, ha, hb]
    | (x0, f0), (x1, f1) :: rest =>
      rcases List.mem_cons.mp hab with h1 | h2
      · have ha : a = x0 := congrArg Prod.fst h1
        have hb : b = f0 := congrArg Prod.snd h1
        simp [np_interp, ha, hb]
      · have htail : List.Chain' (fun a b : ℚ × ℚ => a.1 < b.1)
            ((x1, f1) :: rest) := (List.chain'_cons.mp hl).2
        have hx01 : x0 < x1 := (List.chain'_cons.mp hl).1
        have hx1a : x1 ≤ a :=
          chain_head_le (x1, f1) rest htail (a, b) h2
        have hnot1 : ¬ a ≤ x0 := not_le.mpr (lt_of_lt_of_le hx01 hx1a)
        have hnot2 : ¬ a < x1 := not_lt.mpr hx1a
        rw [np_interp, if_neg hnot1, if_neg hnot2]
        exact ih htail h2

/-! ### The limit-crossing scan of SimulateCTIRun.__init__

`viols = self.mvals.value > self.limit.value`; if `np.any(viols)` the index
`idx = np.where(viols)[0][0]` is the first index with a strict exceedance,
and the run records `limit_time`, `limit_date`, `duration` (kiloseconds from
run start) and `violate = (limit_time < tstop)`; otherwise the three fields
are `None` and `violate` is `False`. -/

/-- First index of `mvals` whose value strictly exceeds `limit`
(`np.where(mvals > limit)[0][0]`), `none` when no value exceeds it. -/
def firstViol (limit : ℚ) : List ℚ → Option ℕ
  | [] => none
  | v :: vs => if limit < v then some 0 else (firstViol limit vs).map (· + 1)

/-- Result fields of the scan at the end of `SimulateCTIRun.__init__`. -/
structure CTIScanResult where
  limit_time : Option ℚ
  limit_date : Option String
  duration : Option ℚ
  violate : Bool
deriving Repr, DecidableEq

/-- The scan itself.  `s2d` stands in for the external `secs2date`
conversion; `times` and `mvals` are the model time and temperature arrays. -/
def ctiScan (s2d : ℚ → String) (tstart tstop limit : ℚ)
    (times mvals : List ℚ) : CTIScanResult :=
  match firstViol limit mvals with
  | none => { limit_time := none, limit_date := none,
              duration := none, violate := false }
  | some idx =>
    let t := times.getD idx 0
    { limit_time := some t
      limit_date := some (s2d t)
      duration := some ((t - tstart) * (1 / 1000))
      violate := decide (t < tstop) }

/-- The end time `SimulateCTIRun.__init__` runs the model out to:
`tend = tstop + 0.5*(tstop - tstart)`. -/
def cti_tend (tstart tstop : ℚ) : ℚ := tstop + (1 / 2) * (tstop - tstart)

/-- The scan returns `none` exactly when no value exceeds the limit. -/
theorem firstViol_eq_none_iff (limit : ℚ) (l : List ℚ) :
    firstViol limit l = none ↔ ∀ v ∈ l, ¬ limit < v := by
  induction l with
  | nil => simp [firstViol]
  | cons v vs ih =>
    by_cases h : limit < v
    · simp [firstViol, h]
    · rw [firstViol, if_neg h]
      simp only [Option.map_eq_none', List.mem_cons]
      rw [ih]
      constructor
      · rintro hall v2 (rfl | hv2)
        · exact h
        · exact hall v2 hv2
      · intro hall v2 hv2
        exact hall v2 (Or.inr hv2)

/-- When `firstViol` returns an index, that index is in range, exceeds the
limit there, and no earlier index exceeds it. -/
theorem firstViol_spec (limit : ℚ) (l : List ℚ) (idx : ℕ)
    (h : firstViol limit l = some idx) :
    idx < l.length ∧ limit < l.getD idx 0 ∧
      ∀ j < idx, ¬ limit < l.getD j 0 := by
  induction l generalizing idx with
  | nil => simp [firstViol] at h
  | cons v vs ih =>
    by_cases hv : limit < v
    · simp only [firstViol, if_pos hv, Option.some.injEq] at h
      subst h
      refine ⟨by simp, by simpa using hv, ?_⟩
      intro j hj
      exact absurd hj (Nat.not_lt_zero j)
    · simp only [firstViol, if_neg hv, Option.map_eq_some'] at h
      obtain ⟨k, hk, hkidx⟩ := h
      obtain ⟨h1, h2, h3⟩ := ih k hk
      subst hkidx
      refine ⟨by simpa using h1, by simpa using h2, ?_⟩
      intro j hj
      match j with
      | 0 => simpa using hv
      | Nat.succ m =>
        have : m < k := Nat.lt_of_succ_lt_succ hj
        simpa using h3 m this

/-- If some value exceeds the limit, `firstViol` finds an index. -/
theorem firstViol_isSome (limit : ℚ) (l : List ℚ)
    (h : ∃ v ∈ l, limit < v) : ∃ idx, firstViol limit l = some idx := by
  rcases hn : firstViol limit l with _ | idx
  · obtain ⟨v, hv, hlt⟩ := h
    exact absurd hlt ((firstViol_eq_none_iff limit l).mp hn v hv)
  · exact ⟨idx, rfl⟩

/-! ### Interpolation accessors

`SimulateCTIRun.get_temp_at_time` adds `tstart` back to the offset and calls
`np.interp` on the model times and values; `Model.get_values` applies
`Ska.Numpy.interpolate` (linear) to every model column at one time. -/

/-- Embeds `SimulateCTIRun.get_temp_at_time(t)`: temperature `t` seconds past the
start of the run, via `np.interp(t + tstart, times, values)`. -/
def get_temp_at_time (tstart : ℚ) (times vals : List ℚ) (t : ℚ) : ℚ :=
  np_interp (t + tstart) (times.zip vals)

/-- Embeds `Ska.Numpy.interpolate(yin, xin, [xout])` with the default linear
method: piecewise-linear interpolation of `yin` sampled at `xin`. -/
def ska_interpolate (yin xin : List ℚ) (x : ℚ) : ℚ :=
  np_interp x (xin.zip yin)

/-- Embeds `Model.get_values(time)`: one interpolated value per model key. -/
def get_values (model : List (String × List ℚ)) (times : List ℚ)
    (time : ℚ) : List (String × ℚ) :=
  model.map fun kv => (kv.1, ska_interpolate kv.2 times time)

/-! ### ModelDataset.write_model and the written ASCII table

The dataset holds one time axis, its date strings, and one value column per
model MSID.  `write_model` refuses to overwrite unless asked, then writes
columns `time`, `date`, and one per MSID, all floats formatted `%.2f`.
A `%.2f` cell is embedded as the integer number of hundredths actually
printed; re-reading parses that decimal back exactly. -/

structure ModelDataset where
  model : List (String × List ℚ)
  times : List ℚ
  dates : List String

/-- Formatting a float with two decimal places rounds it to hundredths: the printed cell,
as an integer count of hundredths. -/
def round2 (x : ℚ) : ℤ := round (x * 100)

/-- Re-reading a `%.2f` cell parses the two-decimal literal exactly. -/
def readCell (n : ℤ) : ℚ := (n : ℚ) / 100

/-- The ASCII table laid out by `write_model`: column names, the `time`
column (printed `%.2f`), the `date` column, and one printed column per
MSID. -/
structure AsciiTable where
  names : List String
  timeCol : List ℤ
  dateCol : List String
  dataCols : List (String × List ℤ)
deriving DecidableEq

/-- The loop body of `write_model`: for the first MSID the `time` and
`date` columns are emitted, then one column per MSID. -/
def writeModelTable (ds : ModelDataset) : AsciiTable :=
  { names := match ds.model with
      | [] => []
      | _ :: _ => "time" :: "date" :: ds.model.map Prod.fst
    timeCol := match ds.model with
      | [] => []
      | _ :: _ => ds.times.map round2
    dateCol := match ds.model with
      | [] => []
      | _ :: _ => ds.dates
    dataCols := ds.model.map fun kv => (kv.1, kv.2.map round2) }

/-- The filesystem as an association list from filename to table; the most
recent write shadows older entries. -/
def FileSystem : Type := List (String × AsciiTable)

/-- Embeds `os.path.exists` for the embedded filesystem. -/
def FileSystem.exists (fs : FileSystem) (filename : String) : Bool :=
  (List.lookup filename fs).isSome

/-- Read a file back (`ascii.read` on a file `write_model` produced). -/
def FileSystem.read (fs : FileSystem) (filename : String) :
    Option AsciiTable :=
  List.lookup filename fs

/-- Embeds `ModelDataset.write_model(filename, overwrite)`: raises `IOError` when
the file exists and `overwrite` is false, otherwise writes the table. -/
def write_model (ds : ModelDataset) (filename : String) (overwrite : Bool)
    (fs : FileSystem) : Except String Unit × FileSystem :=
  if fs.exists filename && !overwrite then
    (Except.error ("File " ++ filename ++
      " already exists, but overwrite=False!"), fs)
  else
    (Except.ok (), (filename, writeModelTable ds) :: fs)

/-! ### find_json -/

/-- The `short_name` mapping of thermal_models.py. -/
def short_name : List (String × String) :=
  [("1deamzt", "dea"), ("1dpamzt", "dpa"), ("1pdeaat", "psmc"),
   ("fptemp_11", "acisfp"), ("tmp_fep1_mong", "fep1_mong"),
   ("tmp_fep1_actel", "fep1_actel"), ("tmp_bep_pcb", "bep_pcb")]

/-- The pieces of the process environment `find_json` consults: the `SKA`
environment variable, the working directory, and which paths exist. -/
structure Env where
  ska : Option String
  cwd : String
  pathExists : String → Bool

/-- Python exceptions `find_json` can raise. -/
inductive FindJsonError where
  | keyError
  | ioError
deriving DecidableEq, Repr

/-- Path resolution inside `find_json`: an explicit `model_spec` is kept;
otherwise the spec file is looked for under `$SKA/share` when `SKA` is set
and exists, else under the working directory. -/
def resolve_model_spec (env : Env) (sname : String)
    (model_spec : Option String) : String :=
  match model_spec with
  | some ms => ms
  | none =>
    let path := if sname = "psmc" then "psmc_check" else sname
    let fallback := env.cwd ++ "/" ++ sname ++ "_model_spec.json"
    match env.ska with
    | some skaDir =>
      if env.pathExists skaDir then
        skaDir ++ "/share/" ++ path ++ "/" ++ sname ++ "_model_spec.json"
      else fallback
    | none => fallback

/-- Embeds `find_json(name, model_spec)`: translate the MSID name, resolve the
spec path, and fail with `IOError` when the resolved path does not exist. -/
def find_json (env : Env) (name : String) (model_spec : Option String) :
    Except FindJsonError String :=
  match List.lookup name short_name with
  | none => Except.error FindJsonError.keyError
  | some sname =>
    let ms := resolve_model_spec env sname model_spec
    if env.pathExists ms then Except.ok ms
    else Except.error FindJsonError.ioError

/-! ### ThermalModelFromFiles / ThermalModelFromLoad construction guards

`Model.from_load_file` and the engineering-archive fetch live outside this
package; they enter as the oracles `loadFile` (keys and time axis per
temperature file) and `fetchTimes` (the interpolated MSID time axis the
archive returns for a component list). -/

/-- What `Model.from_load_file` yields from one temperature file: its model
keys and their shared time axis. -/
structure LoadedModel where
  keys : List String
  times : List ℚ

/-- Embeds `np.unique`: sorted list of the distinct elements. -/
def npUnique (l : List String) : List String :=
  l.dedup.mergeSort fun a b => decide (a ≤ b)

/-- The `RuntimeError` message for unsupported multi-file combinations. -/
def uniqueErr : String :=
  "You can only import model files where all are the same MSID or they " ++
  "are all different!"

/-- The `RuntimeError` message for mismatched model/MSID time axes. -/
def lengthsErr : String :=
  "Lengths of time arrays for model data and MSIDs do not match. You " ++
  "probably ran a model past the end date in the engineering archive!"

/-- The component list `ThermalModelFromFiles.__init__` builds in its
multi-file branch: the first model key of each file. -/
def fileComps (loadFile : String → LoadedModel) (temp_files : List String) :
    List String :=
  (temp_files.map loadFile).map fun m => m.keys.headD ""

/-- The file-loading stage of `ThermalModelFromFiles.__init__`: the model
components and time axis kept for the MSID fetch, or the `RuntimeError`
for unsupported combinations of several files. -/
def loadStage (loadFile : String → LoadedModel) (temp_files : List String) :
    Except String (List String × List ℚ) :=
  if temp_files.length = 1 then
    let m := loadFile (temp_files.headD "")
    Except.ok (m.keys, m.times)
  else
    let comps := fileComps loadFile temp_files
    let times := ((temp_files.map loadFile).headD ⟨[], []⟩).times
    let u := npUnique comps
    if u.length = 1 then Except.ok (u, times)
    else if u.length = temp_files.length then Except.ok (u, times)
    else Except.error uniqueErr

/-- Embeds `ThermalModelFromFiles.__init__` up to the checks that can raise: load
the temperature files, enforce the all-same / all-distinct rule for several
files, then (for `get_msids` with no tracelog) compare the interpolated MSID
time axis against that of the model. -/
def fromFiles (loadFile : String → LoadedModel)
    (fetchTimes : List String → List ℚ) (temp_files : List String)
    (get_msids : Bool) (tl_file : Option String) : Except String Unit :=
  match loadStage loadFile temp_files with
  | Except.error e => Except.error e
  | Except.ok (comps, times) =>
    if get_msids then
      match tl_file with
      | some _ => Except.ok ()
      | none =>
        if (fetchTimes comps).length ≠ times.length then
          Except.error lengthsErr
        else Except.ok ()
    else Except.ok ()

/-- The matching check in `ThermalModelFromLoad.__init__`: with `get_msids`
and no tracelog, the interpolated MSID time axis must be as long as the
model's. -/
def fromLoad (modelTimes fetchedTimes : List ℚ) (get_msids : Bool)
    (tl_file : Option String) : Except String Unit :=
  if get_msids then
    match tl_file with
    | some _ => Except.ok ()
    | none =>
      if fetchedTimes.length ≠ modelTimes.length then
        Except.error lengthsErr
      else Except.ok ()
  else Except.ok ()

/-! ### The disabled output methods of SimulateCTIRun

Each override consists solely of `raise NotImplementedError`, so every call
fails and neither the dataset nor the filesystem changes. -/

def notImplErr : String := "NotImplementedError"

/-- Embeds `SimulateCTIRun.write_msids`. -/
def cti_write_msids (ds : ModelDataset) (fs : FileSystem)
    (filename : String) (fields : List (String × String))
    (mask_field : Option String) (overwrite : Bool) :
    Except String Unit × ModelDataset × FileSystem :=
  (Except.error notImplErr, ds, fs)

/-- Embeds `SimulateCTIRun.write_states`. -/
def cti_write_states (ds : ModelDataset) (fs : FileSystem)
    (states_file : String) (overwrite : Bool) :
    Except String Unit × ModelDataset × FileSystem :=
  (Except.error notImplErr, ds, fs)

/-- Embeds `SimulateCTIRun.write_model`. -/
def cti_write_model (ds : ModelDataset) (fs : FileSystem)
    (filename : String) (overwrite : Bool) :
    Except String Unit × ModelDataset × FileSystem :=
  (Except.error notImplErr, ds, fs)

/-- Embeds `SimulateCTIRun.make_dashboard_plots`. -/
def cti_make_dashboard_plots (ds : ModelDataset) (fs : FileSystem)
    (yplotlimits errorplotlimits : Option (ℚ × ℚ)) (fig : Option String) :
    Except String Unit × ModelDataset × FileSystem :=
  (Except.error notImplErr, ds, fs)

/-- Embeds `SimulateCTIRun.write_model_and_data`. -/
def cti_write_model_and_data (ds : ModelDataset) (fs : FileSystem)
    (filename : String) (overwrite : Bool) :
    Except String Unit × ModelDataset × FileSystem :=
  (Except.error notImplErr, ds, fs)

/-! ### Concrete stand-ins used by the witness statements -/

/-- A concrete `secs2date` stand-in for evaluating the scan. -/
def sampleDate : ℚ → String := fun _ => "2017:001:00:00:00"

/-! ### Claim theorems -/

/-- C1: the limit-crossing scan of `SimulateCTIRun.__init__` reports no
crossing (all of `limit_time`, `limit_date`, `duration` are `None` and
`violate` is `False`) when no sample strictly exceeds the limit, and
otherwise the reported crossing index is the first (lowest) index whose
value strictly exceeds the limit. -/
theorem cti_scan_first_crossing (s2d : ℚ → String) (tstart tstop limit : ℚ)
    (times mvals : List ℚ) :
    ((∀ v ∈ mvals, ¬ limit < v) →
      ctiScan s2d tstart tstop limit times mvals =
        { limit_time := none, limit_date := none,
          duration := none, violate := false })
    ∧ (∀ idx, firstViol limit mvals = some idx →
        idx < mvals.length ∧ limit < mvals.getD idx 0 ∧
          ∀ j < idx, ¬ limit < mvals.getD j 0)
    ∧ ((∃ v ∈ mvals, limit < v) →
        ∃ idx, firstViol limit mvals = some idx ∧
          (ctiScan s2d tstart tstop limit times mvals).limit_time =
            some (times.getD idx 0)) := by
  refine ⟨?_, ?_, ?_⟩
  · intro h
    have hn : firstViol limit mvals = none :=
      (firstViol_eq_none_iff limit mvals).mpr h
    simp [ctiScan, hn]
  · intro idx h
    exact firstViol_spec limit mvals idx h
  · intro h
    obtain ⟨idx, hidx⟩ := firstViol_isSome limit mvals h
    exact ⟨idx, hidx, by simp [ctiScan, hidx]⟩

/-- Witness for C1: a run staying below the limit reports no crossing. -/
theorem cti_scan_first_crossing_witness :
    ctiScan sampleDate 0 100 5 [0, 1, 2] [1, 2, 3] =
      { limit_time := none, limit_date := none,
        duration := none, violate := false } :=
  (cti_scan_first_crossing sampleDate 0 100 5 [0, 1, 2] [1, 2, 3]).1
    (by decide)

/-- C2: when a crossing is found at index `idx`, the run reports the model
time at that index, the elapsed duration from run start (in kiloseconds),
and `violate` is `True` exactly when the crossing time is strictly before
the nominal stop time. -/
theorem cti_scan_reports (s2d : ℚ → String) (tstart tstop limit : ℚ)
    (times mvals : List ℚ) (idx : ℕ)
    (hidx : firstViol limit mvals = some idx) :
    (ctiScan s2d tstart tstop limit times mvals).limit_time =
        some (times.getD idx 0)
    ∧ (ctiScan s2d tstart tstop limit times mvals).limit_date =
        some (s2d (times.getD idx 0))
    ∧ (ctiScan s2d tstart tstop limit times mvals).duration =
        some ((times.getD idx 0 - tstart) * (1 / 1000))
    ∧ ((ctiScan s2d tstart tstop limit times mvals).violate = true ↔
        times.getD idx 0 < tstop) := by
  simp [ctiScan, hidx]

/-- Witness for C2: a crossing at index 1 (time 50, before stop 100) is
reported with its time, duration 0.05 ks, and `violate = True`. -/
theorem cti_scan_reports_witness :
    (ctiScan sampleDate 0 100 5 [0, 50, 70] [1, 9, 9]).limit_time = some 50
    ∧ (ctiScan sampleDate 0 100 5 [0, 50, 70] [1, 9, 9]).limit_date =
        some (sampleDate 50)
    ∧ (ctiScan sampleDate 0 100 5 [0, 50, 70] [1, 9, 9]).duration =
        some ((50 - 0) * (1 / 1000))
    ∧ ((ctiScan sampleDate 0 100 5 [0, 50, 70] [1, 9, 9]).violate = true ↔
        (50 : ℚ) < 100) :=
  cti_scan_reports sampleDate 0 100 5 [0, 50, 70] [1, 9, 9] 1 (by decide)

/-- C9: the simulation end time is `tstop + 0.5*(tstop - tstart)`, 50% past
the nominal stop, so a crossing after the nominal stop (but before the end
of the simulated span) is still detected and reported with
`violate = False`. -/
theorem cti_run_extends_past_stop (s2d : ℚ → String)
    (tstart tstop limit : ℚ) (times mvals : List ℚ) (idx : ℕ)
    (h : tstart < tstop) (hidx : firstViol limit mvals = some idx)
    (hafter : tstop ≤ times.getD idx 0)
    (hbefore : times.getD idx 0 < cti_tend tstart tstop) :
    cti_tend tstart tstop - tstop = (tstop - tstart) / 2
    ∧ tstop < cti_tend tstart tstop
    ∧ (ctiScan s2d tstart tstop limit times mvals).limit_time =
        some (times.getD idx 0)
    ∧ (ctiScan s2d tstart tstop limit times mvals).violate = false := by
  refine ⟨by unfold cti_tend; ring, ?_, ?_, ?_⟩
  · unfold cti_tend
    linarith
  · simp [ctiScan, hidx]
  · show (ctiScan s2d tstart tstop limit times mvals).violate = false
    unfold ctiScan
    rw [hidx]
    exact decide_eq_false (not_lt.mpr hafter)

/-- Evaluation helper: the simulated end of a run from 0 to 100 is 150. -/
theorem cti_tend_eval : cti_tend 0 100 = 150 := by
  unfold cti_tend
  norm_num

/-- Witness for C9: a crossing at time 110, after stop 100 but before the
simulated end 150, is detected with `violate = False`. -/
theorem cti_run_extends_past_stop_witness :
    cti_tend 0 100 - 100 = (100 - 0) / 2
    ∧ (100 : ℚ) < cti_tend 0 100
    ∧ (ctiScan sampleDate 0 100 5 [0, 110, 140] [1, 9, 9]).limit_time =
        some 110
    ∧ (ctiScan sampleDate 0 100 5 [0, 110, 140] [1, 9, 9]).violate =
        false := by
  have hmain := cti_run_extends_past_stop sampleDate 0 100 5 [0, 110, 140]
    [1, 9, 9] 1 (by decide) (by decide) (by decide)
    (by rw [cti_tend_eval]; decide)
  exact ⟨hmain.1, hmain.2.1, by simpa using hmain.2.2.1, hmain.2.2.2⟩

/-- C10: every disabled output method of `SimulateCTIRun` raises
`NotImplementedError` for all argument values, leaving the dataset and the
filesystem unchanged. -/
theorem cti_outputs_disabled (ds : ModelDataset) (fs : FileSystem)
    (filename states_file : String) (fields : List (String × String))
    (mask_field : Option String) (overwrite : Bool)
    (yplotlimits errorplotlimits : Option (ℚ × ℚ)) (fig : Option String) :
    cti_write_msids ds fs filename fields mask_field overwrite =
        (Except.error notImplErr, ds, fs)
    ∧ cti_write_states ds fs states_file overwrite =
        (Except.error notImplErr, ds, fs)
    ∧ cti_write_model ds fs filename overwrite =
        (Except.error notImplErr, ds, fs)
    ∧ cti_write_model_and_data ds fs filename overwrite =
        (Except.error notImplErr, ds, fs)
    ∧ cti_make_dashboard_plots ds fs yplotlimits errorplotlimits fig =
        (Except.error notImplErr, ds, fs) :=
  ⟨rfl, rfl, rfl, rfl, rfl⟩

/-- The sample pairs of a strictly increasing time axis zipped with a value
column are sorted by abscissa. -/
theorem chain_zip (times vals : List ℚ)
    (hchain : List.Chain' (· < ·) times)
    (hlen : times.length ≤ vals.length) :
    List.Chain' (fun a b : ℚ × ℚ => a.1 < b.1) (times.zip vals) := by
  have hmap : (times.zip vals).map Prod.fst = times :=
    List.map_fst_zip times vals hlen
  have h2 : List.Chain' (· < ·) ((times.zip vals).map Prod.fst) := by
    rw [hmap]
    exact hchain
  exact (List.chain'_map Prod.fst).mp h2

/-- The pair of the `i`-th time and `i`-th value is among the zipped sample
points. -/
theorem zip_sample_mem (times vals : List ℚ) (i : ℕ)
    (hi : i < times.length) (hlen : vals.length = times.length) :
    (times.getD i 0, vals.getD i 0) ∈ times.zip vals := by
  have hiv : i < vals.length := hlen ▸ hi
  have hiz : i < (times.zip vals).length := by
    rw [List.length_zip, hlen]
    exact lt_min hi hi
  have hz : (times.zip vals)[i] = (times[i], vals[i]) :=
    List.getElem_zip
  have h1 : times.getD i 0 = times[i] := List.getD_eq_getElem times 0 hi
  have h2 : vals.getD i 0 = vals[i] := List.getD_eq_getElem vals 0 hiv
  rw [h1, h2, ← hz]
  exact List.getElem_mem hiz

/-- C4: evaluating the linear interpolation at one of its own sample points
returns the original sampled value exactly: `get_temp_at_time` at offset
`times[i] - tstart` yields the model value at index `i`, and
`Model.get_values` at a sample time yields the stored value of every column at
that time. -/
theorem interp_at_sample_points (tstart : ℚ) (times vals : List ℚ)
    (model : List (String × List ℚ)) (i : ℕ)
    (hchain : List.Chain' (· < ·) times)
    (hi : i < times.length) (hlen : vals.length = times.length) :
    get_temp_at_time tstart times vals (times.getD i 0 - tstart) =
      vals.getD i 0
    ∧ (∀ kv ∈ model, kv.2.length = times.length →
        (kv.1, kv.2.getD i 0) ∈ get_values model times (times.getD i 0)) := by
  constructor
  · have hback : times.getD i 0 - tstart + tstart = times.getD i 0 := by ring
    unfold get_temp_at_time
    rw [hback]
    exact np_interp_at_sample (times.zip vals)
      (chain_zip times vals hchain (le_of_eq hlen.symm))
      (times.getD i 0) (vals.getD i 0)
      (zip_sample_mem times vals i hi hlen)
  · intro kv hkv hkvlen
    have hval : ska_interpolate kv.2 times (times.getD i 0) =
        kv.2.getD i 0 := by
      unfold ska_interpolate
      exact np_interp_at_sample (times.zip kv.2)
        (chain_zip times kv.2 hchain (le_of_eq hkvlen.symm))
        (times.getD i 0) (kv.2.getD i 0)
        (zip_sample_mem times kv.2 i hi hkvlen)
    have hmem : (kv.1, ska_interpolate kv.2 times (times.getD i 0)) ∈
        get_values model times (times.getD i 0) :=
      List.mem_map_of_mem (fun x => (x.1, ska_interpolate x.2 times
        (times.getD i 0))) hkv
    rw [hval] at hmem
    exact hmem

/-- Witness for C4: a three-point series interpolated at its middle sample
point returns the stored middle value, both through `get_temp_at_time` and
through `get_values`. -/
theorem interp_at_sample_points_witness :
    get_temp_at_time 10 [10, 20, 30] [3, 7, 5]
        (([10, 20, 30] : List ℚ).getD 1 0 - 10) =
      ([3, 7, 5] : List ℚ).getD 1 0
    ∧ (∀ kv ∈ [("1deamzt", [3, 7, 5])], kv.2.length = 3 →
        ((kv.1, kv.2.getD 1 0) : String × ℚ) ∈
          get_values [("1deamzt", [3, 7, 5])] [10, 20, 30]
            (([10, 20, 30] : List ℚ).getD 1 0)) := by
  have hmain := interp_at_sample_points 10 [10, 20, 30] [3, 7, 5]
    [("1deamzt", [3, 7, 5])] 1
    (List.chain'_cons.mpr ⟨by decide,
      List.chain'_cons.mpr ⟨by decide, List.chain'_singleton 30⟩⟩)
    (by decide) (by decide)
  exact ⟨hmain.1, fun kv hkv h3 => hmain.2 kv hkv (by simpa using h3)⟩

/-- C6: once the model-spec path is resolved (a supplied path is kept, an
omitted one is looked up under `$SKA/share` or the working directory),
`find_json` raises `IOError` exactly when the resolved path does not exist
on disk, and otherwise returns the resolved path unchanged; there is no
retry or fallback after resolution. -/
theorem find_json_missing_spec (env : Env) (name : String)
    (model_spec : Option String) (sname : String)
    (hname : List.lookup name short_name = some sname) :
    (find_json env name model_spec = Except.error FindJsonError.ioError ↔
      env.pathExists (resolve_model_spec env sname model_spec) = false)
    ∧ (env.pathExists (resolve_model_spec env sname model_spec) = true →
      find_json env name model_spec =
        Except.ok (resolve_model_spec env sname model_spec)) := by
  unfold find_json
  rw [hname]
  by_cases h : env.pathExists (resolve_model_spec env sname model_spec) = true
  · simp [h]
  · simp only [Bool.not_eq_true] at h
    simp [h]

/-- A concrete environment for the witness: no file exists. -/
def emptyDisk : Env := { ska := none, cwd := "/work", pathExists := fun _ => false }

/-- Witness for C6: with no file on disk, looking up the `1deamzt` model
spec raises `IOError`, the resolved path being the working-directory
fallback. -/
theorem find_json_missing_spec_witness :
    (find_json emptyDisk "1deamzt" none = Except.error FindJsonError.ioError ↔
      emptyDisk.pathExists (resolve_model_spec emptyDisk "dea" none) = false)
    ∧ (emptyDisk.pathExists (resolve_model_spec emptyDisk "dea" none) = true →
      find_json emptyDisk "1deamzt" none =
        Except.ok (resolve_model_spec emptyDisk "dea" none)) :=
  find_json_missing_spec emptyDisk "1deamzt" none "dea" rfl

/-- C7: `write_model` on an existing file with `overwrite=False` raises
`IOError` and leaves the filesystem (in particular the existing file)
untouched; when the file is absent or `overwrite` is set, it succeeds and
the file holds the written table. -/
theorem write_model_overwrite_guard (ds : ModelDataset) (filename : String)
    (overwrite : Bool) (fs : FileSystem) :
    ((fs.exists filename = true ∧ overwrite = false) →
      write_model ds filename overwrite fs =
        (Except.error ("File " ++ filename ++
          " already exists, but overwrite=False!"), fs))
    ∧ ((fs.exists filename = false ∨ overwrite = true) →
      (write_model ds filename overwrite fs).1 = Except.ok () ∧
      (write_model ds filename overwrite fs).2.read filename =
        some (writeModelTable ds)) := by
  constructor
  · rintro ⟨h1, h2⟩
    unfold write_model
    rw [h1, h2]
    rfl
  · intro h
    have hcond : (fs.exists filename && !overwrite) = false := by
      rcases h with h | h
      · simp [h]
      · simp [h]
    unfold write_model
    rw [hcond]
    refine ⟨rfl, ?_⟩
    simp [FileSystem.read]

/-- A concrete dataset for the witnesses: one MSID column. -/
def sampleDS : ModelDataset :=
  { model := [("1deamzt", [35, 36])], times := [0, 328], dates := ["d0", "d1"] }

/-- Witness for C7: writing over an existing `out.dat` without `overwrite`
fails and leaves the filesystem alone; writing a fresh `new.dat`
succeeds. -/
theorem write_model_overwrite_guard_witness :
    write_model sampleDS "out.dat" false [("out.dat", writeModelTable sampleDS)] =
      (Except.error ("File " ++ "out.dat" ++
        " already exists, but overwrite=False!"),
       [("out.dat", writeModelTable sampleDS)])
    ∧ (write_model sampleDS "new.dat" false []).1 = Except.ok ()
    ∧ (write_model sampleDS "new.dat" false []).2.read "new.dat" =
        some (writeModelTable sampleDS) := by
  refine ⟨?_, ?_⟩
  · exact (write_model_overwrite_guard sampleDS "out.dat" false
      [("out.dat", writeModelTable sampleDS)]).1 ⟨rfl, rfl⟩
  · exact (write_model_overwrite_guard sampleDS "new.dat" false []).2
      (Or.inl rfl)

/-- A `%.2f`-printed cell, parsed back, is within half a hundredth of the
original value. -/
theorem round2_close (x : ℚ) : |readCell (round2 x) - x| ≤ 1 / 200 := by
  unfold readCell round2
  have h : |x * 100 - round (x * 100)| ≤ 1 / 2 := abs_sub_round (x * 100)
  rw [abs_sub_comm] at h
  have hrw : ((round (x * 100) : ℚ) / 100 - x) =
      ((round (x * 100) : ℚ) - x * 100) / 100 := by ring
  rw [hrw, abs_div, abs_of_pos (by norm_num : (0 : ℚ) < 100)]
  calc |(round (x * 100) : ℚ) - x * 100| / 100 ≤ (1 / 2) / 100 :=
        (div_le_div_iff_of_pos_right (by norm_num)).mpr h
    _ = 1 / 200 := by norm_num

/-- Reading `getD` through a `round2`-mapped column. -/
theorem getD_map_round2 (l : List ℚ) (i : ℕ) (hi : i < l.length) :
    (l.map round2).getD i 0 = round2 (l.getD i 0) := by
  have h1 : i < (l.map round2).length := by simpa using hi
  rw [List.getD_eq_getElem (l.map round2) 0 h1, List.getD_eq_getElem l 0 hi,
    List.getElem_map]

/-- C5: writing a dataset with `write_model` and re-reading the file
round-trips the column names (`time`, `date`, one column per model MSID)
and every numeric value to the stated `%.2f` precision (within half a
hundredth). -/
theorem write_model_round_trip (ds : ModelDataset) (filename : String)
    (fs : FileSystem) (hne : ds.model ≠ []) :
    ∃ t, (write_model ds filename true fs).2.read filename = some t
    ∧ t.names = "time" :: "date" :: ds.model.map Prod.fst
    ∧ t.dateCol = ds.dates
    ∧ t.timeCol.length = ds.times.length
    ∧ (∀ i < ds.times.length,
        |readCell (t.timeCol.getD i 0) - ds.times.getD i 0| ≤ 1 / 200)
    ∧ ∀ kv ∈ ds.model, ∃ col, (kv.1, col) ∈ t.dataCols
        ∧ col.length = kv.2.length
        ∧ ∀ i < kv.2.length,
            |readCell (col.getD i 0) - kv.2.getD i 0| ≤ 1 / 200 := by
  obtain ⟨p, rest, hm⟩ : ∃ p rest, ds.model = p :: rest := by
    cases hc : ds.model with
    | nil => exact absurd hc hne
    | cons p rest => exact ⟨p, rest, rfl⟩
  refine ⟨writeModelTable ds, ?_, ?_, ?_, ?_, ?_, ?_⟩
  · unfold write_model
    simp [FileSystem.read]
  · simp [writeModelTable, hm]
  · simp [writeModelTable, hm]
  · simp [writeModelTable, hm]
  · intro i hi
    have : (writeModelTable ds).timeCol = ds.times.map round2 := by
      simp [writeModelTable, hm]
    rw [this, getD_map_round2 ds.times i hi]
    exact round2_close (ds.times.getD i 0)
  · intro kv hkv
    refine ⟨kv.2.map round2, ?_, by simp, ?_⟩
    · have : (writeModelTable ds).dataCols =
          ds.model.map fun x => (x.1, x.2.map round2) := rfl
      rw [this]
      exact List.mem_map_of_mem (fun x => (x.1, x.2.map round2)) hkv
    · intro i hi
      rw [getD_map_round2 kv.2 i hi]
      exact round2_close (kv.2.getD i 0)

/-- Witness for C5: the one-MSID sample dataset round-trips its column
names and values. -/
theorem write_model_round_trip_witness :
    ∃ t, (write_model sampleDS "model.dat" true []).2.read "model.dat" =
        some t
    ∧ t.names = "time" :: "date" :: sampleDS.model.map Prod.fst
    ∧ t.dateCol = sampleDS.dates
    ∧ t.timeCol.length = sampleDS.times.length
    ∧ (∀ i < sampleDS.times.length,
        |readCell (t.timeCol.getD i 0) - sampleDS.times.getD i 0| ≤ 1 / 200)
    ∧ ∀ kv ∈ sampleDS.model, ∃ col, (kv.1, col) ∈ t.dataCols
        ∧ col.length = kv.2.length
        ∧ ∀ i < kv.2.length,
            |readCell (col.getD i 0) - kv.2.getD i 0| ≤ 1 / 200 :=
  write_model_round_trip sampleDS "model.dat" [] (by simp [sampleDS])

/-- Lemma: `np.unique` keeps exactly the distinct elements: its length is the
length of `dedup`. -/
theorem npUnique_length (l : List String) :
    (npUnique l).length = l.dedup.length :=
  (List.mergeSort_perm l.dedup fun a b => decide (a ≤ b)).length_eq

/-- The distinct-element count equals the list length exactly for lists
with pairwise distinct elements. -/
theorem dedup_length_eq_iff (l : List String) :
    l.dedup.length = l.length ↔ l.Nodup := by
  constructor
  · intro h
    have heq : l.dedup = l := (List.dedup_sublist l).eq_of_length h
    rw [← heq]
    exact List.nodup_dedup l
  · intro h
    rw [List.dedup_eq_self.mpr h]

/-- The distinct-element count is 1 exactly when all elements of a
nonempty list coincide. -/
theorem dedup_length_one_iff (l : List String) (hne : l ≠ []) :
    l.dedup.length = 1 ↔ ∃ a, ∀ c ∈ l, c = a := by
  constructor
  · intro h
    obtain ⟨a, ha⟩ := List.length_eq_one.mp h
    refine ⟨a, fun c hc => ?_⟩
    have hcd : c ∈ l.dedup := List.mem_dedup.mpr hc
    rw [ha] at hcd
    exact List.mem_singleton.mp hcd
  · rintro ⟨a, ha⟩
    cases hd : l.dedup with
    | nil => exact absurd ((List.dedup_eq_nil l).mp hd) hne
    | cons b t =>
      cases ht : t with
      | nil => simp
      | cons c t2 =>
        exfalso
        have hnd : l.dedup.Nodup := List.nodup_dedup l
        rw [hd, ht] at hnd
        have hbd : b ∈ l.dedup := by
          rw [hd]
          exact List.mem_cons_self b t
        have hcd : c ∈ l.dedup := by
          rw [hd, ht]
          exact List.mem_cons_of_mem b (List.mem_cons_self c t2)
        have hb : b ∈ l := List.mem_dedup.mp hbd
        have hcl : c ∈ l := List.mem_dedup.mp hcd
        have hbc : b = c := (ha b hb).trans (ha c hcl).symm
        have hnotin : b ∉ c :: t2 := (List.nodup_cons.mp hnd).1
        refine hnotin ?_
        rw [hbc]
        exact List.mem_cons_self c t2

/-- C3: for two or more temperature files, `ThermalModelFromFiles.__init__`
raises its `RuntimeError` exactly when the number of unique MSID components
is neither 1 nor the number of files; unique count 1 means all components
coincide, unique count equal to the file count means they are pairwise
distinct, and in those cases no such error is raised. -/
theorem fromFiles_component_guard (loadFile : String → LoadedModel)
    (fetchTimes : List String → List ℚ) (temp_files : List String)
    (tl_file : Option String) (h2 : 2 ≤ temp_files.length) :
    (fromFiles loadFile fetchTimes temp_files false tl_file =
        Except.error uniqueErr ↔
      ¬((npUnique (fileComps loadFile temp_files)).length = 1 ∨
        (npUnique (fileComps loadFile temp_files)).length =
          temp_files.length))
    ∧ ((npUnique (fileComps loadFile temp_files)).length = 1 ↔
        ∃ a, ∀ c ∈ fileComps loadFile temp_files, c = a)
    ∧ ((npUnique (fileComps loadFile temp_files)).length =
          temp_files.length ↔ (fileComps loadFile temp_files).Nodup)
    ∧ (((npUnique (fileComps loadFile temp_files)).length = 1 ∨
        (npUnique (fileComps loadFile temp_files)).length =
          temp_files.length) →
      fromFiles loadFile fetchTimes temp_files false tl_file =
        Except.ok ()) := by
  have hn1 : ¬ temp_files.length = 1 := by omega
  have hflen : (fileComps loadFile temp_files).length = temp_files.length := by
    unfold fileComps
    rw [List.length_map, List.length_map]
  have hne : fileComps loadFile temp_files ≠ [] := by
    intro h
    rw [h] at hflen
    simp at hflen
    omega
  refine ⟨?_, ?_, ?_, ?_⟩
  · by_cases h1 : (npUnique (fileComps loadFile temp_files)).length = 1
    · simp [fromFiles, loadStage, hn1, h1]
    · by_cases hn : (npUnique (fileComps loadFile temp_files)).length =
          temp_files.length
      · simp [fromFiles, loadStage, hn1, h1, hn]
      · simp [fromFiles, loadStage, hn1, h1, hn]
  · rw [npUnique_length]
    exact dedup_length_one_iff (fileComps loadFile temp_files) hne
  · rw [npUnique_length, ← hflen]
    exact dedup_length_eq_iff (fileComps loadFile temp_files)
  · intro h
    rcases h with h1 | hn
    · simp [fromFiles, loadStage, hn1, h1]
    · by_cases h1 : (npUnique (fileComps loadFile temp_files)).length = 1
      · simp [fromFiles, loadStage, hn1, h1]
      · simp [fromFiles, loadStage, hn1, h1, hn]

/-- A concrete loader for the witnesses: `a.dat` and `c.dat` carry the DEA
model, `b.dat` the DPA model. -/
def sampleLoad : String → LoadedModel := fun f =>
  if f = "a.dat" then { keys := ["1deamzt"], times := [0] }
  else if f = "b.dat" then { keys := ["1dpamzt"], times := [0] }
  else { keys := ["1deamzt"], times := [0] }

/-- A concrete archive fetch for the witnesses. -/
def sampleFetch : List String → List ℚ := fun _ => [0]

/-- Witness for C3: three files carrying two distinct MSIDs (neither all
the same nor all different) hit the `RuntimeError`. -/
theorem fromFiles_component_guard_witness :
    (fromFiles sampleLoad sampleFetch ["a.dat", "b.dat", "c.dat"] false none =
        Except.error uniqueErr ↔
      ¬((npUnique (fileComps sampleLoad ["a.dat", "b.dat", "c.dat"])).length = 1 ∨
        (npUnique (fileComps sampleLoad ["a.dat", "b.dat", "c.dat"])).length = 3))
    ∧ ((npUnique (fileComps sampleLoad ["a.dat", "b.dat", "c.dat"])).length = 1 ↔
        ∃ a, ∀ c ∈ fileComps sampleLoad ["a.dat", "b.dat", "c.dat"], c = a)
    ∧ ((npUnique (fileComps sampleLoad ["a.dat", "b.dat", "c.dat"])).length = 3 ↔
        (fileComps sampleLoad ["a.dat", "b.dat", "c.dat"]).Nodup)
    ∧ (((npUnique (fileComps sampleLoad ["a.dat", "b.dat", "c.dat"])).length = 1 ∨
        (npUnique (fileComps sampleLoad ["a.dat", "b.dat", "c.dat"])).length = 3) →
      fromFiles sampleLoad sampleFetch ["a.dat", "b.dat", "c.dat"] false none =
        Except.ok ()) :=
  fromFiles_component_guard sampleLoad sampleFetch ["a.dat", "b.dat", "c.dat"]
    none (by decide)

/-- C8: with `get_msids=True` and no tracelog file, construction raises the
length-mismatch `RuntimeError` exactly when the interpolated MSID time
array length differs from the model time array length — in
`ThermalModelFromFiles` (after a successful load stage) and in
`ThermalModelFromLoad` alike; matching lengths complete without error. -/
theorem msid_length_guard (loadFile : String → LoadedModel)
    (fetchTimes : List String → List ℚ) (temp_files : List String)
    (comps : List String) (times modelTimes fetched : List ℚ)
    (hload : loadStage loadFile temp_files = Except.ok (comps, times)) :
    (fromFiles loadFile fetchTimes temp_files true none =
        Except.error lengthsErr ↔
      (fetchTimes comps).length ≠ times.length)
    ∧ ((fetchTimes comps).length = times.length →
        fromFiles loadFile fetchTimes temp_files true none = Except.ok ())
    ∧ (fromLoad modelTimes fetched true none = Except.error lengthsErr ↔
        fetched.length ≠ modelTimes.length)
    ∧ (fetched.length = modelTimes.length →
        fromLoad modelTimes fetched true none = Except.ok ()) := by
  refine ⟨?_, ?_, ?_, ?_⟩
  · by_cases h : (fetchTimes comps).length = times.length
    · simp [fromFiles, hload, h]
    · simp [fromFiles, hload, h]
  · intro h
    simp [fromFiles, hload, h]
  · by_cases h : fetched.length = modelTimes.length
    · simp [fromLoad, h]
    · simp [fromLoad, h]
  · intro h
    simp [fromLoad, h]

/-- Witness for C8: one file whose model has one time sample, but an
archive fetch returning two samples — the mismatch is reported; equal
lengths in `ThermalModelFromLoad` complete fine. -/
theorem msid_length_guard_witness :
    (fromFiles sampleLoad (fun _ => [0, 1]) ["a.dat"] true none =
        Except.error lengthsErr ↔
      ((fun (_ : List String) => ([0, 1] : List ℚ)) ["1deamzt"]).length ≠
        ([0] : List ℚ).length)
    ∧ (((fun (_ : List String) => ([0, 1] : List ℚ)) ["1deamzt"]).length =
          ([0] : List ℚ).length →
        fromFiles sampleLoad (fun _ => [0, 1]) ["a.dat"] true none =
          Except.ok ())
    ∧ (fromLoad [0] [0, 1] true none = Except.error lengthsErr ↔
        ([0, 1] : List ℚ).length ≠ ([0] : List ℚ).length)
    ∧ (([0, 1] : List ℚ).length = ([0] : List ℚ).length →
        fromLoad [0] [0, 1] true none = Except.ok ()) :=
  msid_length_guard sampleLoad (fun _ => [0, 1]) ["a.dat"] ["1deamzt"] [0]
    [0] [0, 1] (by simp [loadStage, sampleLoad])

end Acispy
